import Mathlib

/-!
Verification development for the Teletext-Zero rendering/constraint engine
and navigation state machine.

Text is modelled as `List Char` (one JS string character per list entry).
Machine code under test is shallowly embedded from the TypeScript sources:
  - src/constants/grid.ts, src/utils/formatters.ts (grid constraint module)
  - src/constants/colors.ts (color palette module)
  - src/components/Header.tsx, src/components/ContentArea.tsx (content formatter)
  - src/hooks/useNavigation.ts, src/components/KeyboardNavigationHandler.tsx
    (navigation state machine)
  - src/pages/registry.ts, src/services/api.ts (page registry and wrapping)
  - src/components/TeletextScreen.tsx (screen sequencer)
-/

namespace Teletext

/-! ## Grid constraint module (src/constants/grid.ts, src/utils/formatters.ts) -/

/-- GRID.COLUMNS from src/constants/grid.ts. -/
def COLUMNS : Nat := 40

/-- GRID.ROWS from src/constants/grid.ts. -/
def ROWS : Nat := 24

/-- GRID.CONTENT_ROWS from src/constants/grid.ts. -/
def CONTENT_ROWS : Nat := 23

/-- `truncateText` from src/utils/formatters.ts: returns `text` unchanged when
its length is at most `GRID.COLUMNS`, otherwise `text.substring(0, GRID.COLUMNS)`. -/
def truncateText (text : List Char) : List Char :=
  if text.length ≤ COLUMNS then text else text.take COLUMNS

/-- `truncateLines` from src/utils/formatters.ts: returns `lines` unchanged when
there are at most `GRID.CONTENT_ROWS` of them, otherwise `lines.slice(0, GRID.CONTENT_ROWS)`. -/
def truncateLines (lines : List (List Char)) : List (List Char) :=
  if lines.length ≤ CONTENT_ROWS then lines else lines.take CONTENT_ROWS

/-! ## Color palette module (src/constants/colors.ts) -/

/-- `TELETEXT_COLORS` from src/constants/colors.ts: the 8 canonical
name-to-hex entries, in source order. -/
def TELETEXT_COLORS : List (List Char × List Char) :=
  [ ("black".data, "#000000".data)
  , ("white".data, "#FFFFFF".data)
  , ("red".data, "#FF0000".data)
  , ("green".data, "#00FF00".data)
  , ("blue".data, "#0000FF".data)
  , ("yellow".data, "#FFFF00".data)
  , ("cyan".data, "#00FFFF".data)
  , ("magenta".data, "#FF00FF".data) ]

/-- The 8 canonical palette keys (`Object.keys(TELETEXT_COLORS)`). -/
def teletextColorNames : List (List Char) := TELETEXT_COLORS.map Prod.fst

/-- The 8 canonical hex values (`Object.values(TELETEXT_COLORS)`). -/
def teletextColorHexes : List (List Char) := TELETEXT_COLORS.map Prod.snd

/-- `isValidTeletextColor` from src/constants/colors.ts:
`Object.hasOwn(TELETEXT_COLORS, color)`, i.e. key membership. -/
def isValidTeletextColor (color : List Char) : Bool :=
  TELETEXT_COLORS.any (fun e => e.1 == color)

/-- `getTeletextColorHex` from src/constants/colors.ts: the JS indexing
`TELETEXT_COLORS[color]`, which yields `undefined` (here `none`) when the key
is absent at runtime. -/
def getTeletextColorHex (color : List Char) : Option (List Char) :=
  (TELETEXT_COLORS.find? (fun e => e.1 == color)).map Prod.snd

/-- A character that is a hexadecimal digit as used in the canonical palette
values (decimal digit or uppercase A-F). -/
def isHexDigitChar (c : Char) : Bool :=
  c.isDigit || ('A' ≤ c && c ≤ 'F')

/-- A palette value of the shape `#` followed by exactly six hex digits. -/
def sixHexAfterHash (h : List Char) : Bool :=
  match h with
  | '#' :: t => (t.length == 6) && t.all isHexDigitChar
  | _ => false

/-- `Option`-level check that a hex lookup produced a canonical
six-hex-digit palette value. -/
def hexOk (r : Option (List Char)) : Bool :=
  match r with
  | some h => teletextColorHexes.contains h && sixHexAfterHash h
  | none => false

/-! ## Decimal rendering (JS number-to-string on naturals) -/

/-- Fuel-driven base-10 digit rendering; the fuel is only a structural
termination device, `natDigits` below always supplies enough. -/
def natDigitsAux (fuel : Nat) (n : Nat) : List Char :=
  match fuel with
  | 0 => []
  | fuel + 1 =>
    if n < 10 then [Char.ofNat (48 + n)]
    else natDigitsAux fuel (n / 10) ++ [Char.ofNat (48 + n % 10)]

/-- Base-10 rendering of a natural number, as produced by the JS template
interpolation and `toString()` calls in the sources. -/
def natDigits (n : Nat) : List Char := natDigitsAux (n + 1) n

/-- JS `String.prototype.padStart(w, "0")`. -/
def padStart (w : Nat) (l : List Char) : List Char :=
  List.replicate (w - l.length) '0' ++ l

/-- `formatTime` from src/utils/formatters.ts: zero-padded `HH:MM:SS`
built from the hour, minute and second components of the date. -/
def formatTime (h m s : Nat) : List Char :=
  padStart 2 (natDigits h) ++ ':' :: (padStart 2 (natDigits m) ++ ':' :: padStart 2 (natDigits s))

/-- `formatPageNumber` from src/utils/formatters.ts:
`"P" + pageNumber.toString().padStart(3, "0")`. -/
def formatPageNumber (pageNumber : Nat) : List Char :=
  'P' :: padStart 3 (natDigits pageNumber)

/-- Total interior space of the header: `GRID.COLUMNS - contentLength`
from src/components/Header.tsx (callers must keep the content within budget,
the component itself would throw on a negative repeat count in JS). -/
def headerTotalSpaces (pageName : List Char) (pageNumber h m s : Nat) : Nat :=
  COLUMNS - (pageName.length + (formatPageNumber pageNumber).length + (formatTime h m s).length)

/-- `Math.floor(totalSpaces / 2)` from src/components/Header.tsx. -/
def spacesBeforeCenter (pageName : List Char) (pageNumber h m s : Nat) : Nat :=
  headerTotalSpaces pageName pageNumber h m s / 2

/-- `totalSpaces - spacesBeforeCenter` from src/components/Header.tsx. -/
def spacesAfterCenter (pageName : List Char) (pageNumber h m s : Nat) : Nat :=
  headerTotalSpaces pageName pageNumber h m s - spacesBeforeCenter pageName pageNumber h m s

/-- `headerText` built by the Header component (src/components/Header.tsx):
page name, spaces, `P###` token, spaces, `HH:MM:SS` clock. -/
def headerText (pageName : List Char) (pageNumber h m s : Nat) : List Char :=
  pageName
    ++ List.replicate (spacesBeforeCenter pageName pageNumber h m s) ' '
    ++ formatPageNumber pageNumber
    ++ List.replicate (spacesAfterCenter pageName pageNumber h m s) ' '
    ++ formatTime h m s

/-! ## Navigation state machine
(src/hooks/useNavigation.ts, src/components/KeyboardNavigationHandler.tsx)

The hook's React state is modelled as an explicit record.  The zero-delay
`setTimeout` that `addDigit` uses to schedule buffer resolution is modelled by
the `pending` queue; `flush` runs the queued callbacks (the event-loop step
between renders).  A "page-change event" is recorded whenever a queued
resolution runs and assigns `currentPage`. -/

/-- The observable state of `useNavigation` plus the queue of zero-delay
callbacks that `addDigit` has scheduled but the event loop has not yet run. -/
structure NavState where
  currentPage : Nat
  pageBuffer : List Char
  isNavigating : Bool
  events : List Nat
  pending : List Nat
deriving DecidableEq, Repr

/-- Initial hook state `useNavigation(initialPage)`. -/
def initialState (initialPage : Nat) : NavState :=
  { currentPage := initialPage, pageBuffer := [], isNavigating := false,
    events := [], pending := [] }

/-- `parseInt(newBuffer, 10)` on a buffer of decimal digit characters. -/
def parseBuf (buffer : List Char) : Nat :=
  buffer.foldl (fun acc c => acc * 10 + (c.toNat - 48)) 0

/-- Numeric value of one digit character. -/
def digitVal (c : Char) : Nat := c.toNat - 48

/-- `addDigit` from src/hooks/useNavigation.ts (the synchronous part).
Rejects anything that is not exactly one `[0-9]` character, ignores input
when the buffer is already full, appends otherwise, and on the third digit
schedules the zero-delay resolution callback. -/
def addDigit (s : NavState) (digit : List Char) : NavState :=
  match digit with
  | [d] =>
    if d.isDigit then
      if 3 ≤ s.pageBuffer.length then s
      else
        let newBuffer := s.pageBuffer ++ [d]
        if newBuffer.length = 3 then
          { s with pageBuffer := newBuffer,
                   pending := s.pending ++ [parseBuf newBuffer] }
        else { s with pageBuffer := newBuffer }
    else s
  | _ => s

/-- One scheduled resolution callback from `addDigit` running: pulses
`isNavigating`, assigns `currentPage`, clears the buffer, and is recorded as
a page-change event. -/
def resolvePending (s : NavState) (pageNumber : Nat) : NavState :=
  { s with isNavigating := false, currentPage := pageNumber,
           pageBuffer := [], events := s.events ++ [pageNumber] }

/-- Run every queued zero-delay callback, oldest first. -/
def flush (s : NavState) : NavState :=
  s.pending.foldl resolvePending { s with pending := [] }

/-- `handleKeyDown` from src/components/KeyboardNavigationHandler.tsx:
filters `event.key` with `/^[0-9]$/` and forwards digits to `addDigit`. -/
def handleKeyDown (s : NavState) (key : List Char) : NavState :=
  match key with
  | [c] => if c.isDigit then addDigit s [c] else s
  | _ => s

/-- The `/^[0-9]$/` classification of a raw key token. -/
def isDigitKey (key : List Char) : Bool :=
  match key with
  | [c] => c.isDigit
  | _ => false

/-- The digit characters of a raw keystroke sequence, in order. -/
def digitChars (keys : List (List Char)) : List Char :=
  keys.filterMap (fun k =>
    match k with
    | [c] => if c.isDigit then some c else none
    | _ => none)

/-- Feeding a burst of keystrokes to the handler and then letting the event
loop run the scheduled zero-delay callbacks. -/
def processKeys (initialPage : Nat) (keys : List (List Char)) : NavState :=
  flush (keys.foldl handleKeyDown (initialState initialPage))

/-- `ColorMap` from src/types/page.ts: sparse row-to-(column-to-color) map,
modelled as nested association lists. -/
abbrev ColorMap := List (Nat × List (Nat × List Char))

/-- `PageContent` from src/types/page.ts. -/
structure PageContent where
  lines : List (List Char)
  colors : Option ColorMap
deriving DecidableEq

/-- One rendered character cell: either a plain character or a `<span>` with
a `color` style whose value is the (possibly `undefined`) hex lookup. -/
inductive RenderCell where
  | plain (ch : Char)
  | styled (ch : Char) (hex : Option (List Char))
deriving DecidableEq

/-- One rendered content row: either a plain text line or a list of
per-character spans. -/
inductive RenderRow where
  | plainLine (line : List Char)
  | spans (cells : List RenderCell)
deriving DecidableEq

/-- Number of character cells a rendered row occupies. -/
def rowWidth : RenderRow → Nat
  | RenderRow.plainLine l => l.length
  | RenderRow.spans cs => cs.length

/-- Per-character span rendering of one line against one row's color map
(the inner loop of ContentArea.tsx): a truthy `colorMap[colIndex]` yields a
styled span whose hex is `getTeletextColorHex(color)`. -/
def renderLine (colorMap : List (Nat × List Char)) (line : List Char) : List RenderCell :=
  line.enum.map (fun ic =>
    match List.lookup ic.1 colorMap with
    | some color =>
      if color = [] then RenderCell.plain ic.2
      else RenderCell.styled ic.2 (getTeletextColorHex color)
    | none => RenderCell.plain ic.2)

/-- The `ContentArea` component (src/components/ContentArea.tsx): truncates
rows then columns, and renders each remaining line either plainly (no color
map for its grid row) or as per-character spans. -/
def contentAreaRows (content : PageContent) : List RenderRow :=
  let truncatedLines := truncateLines content.lines
  let processedLines := truncatedLines.map truncateText
  processedLines.enum.map (fun rl =>
    match content.colors with
    | none => RenderRow.plainLine rl.2
    | some cm =>
      match List.lookup (rl.1 + 2) cm with
      | none => RenderRow.plainLine rl.2
      | some colorMap => RenderRow.spans (renderLine colorMap rl.2))

/-- The color values ContentArea passes to `getTeletextColorHex` while
rendering, in order. -/
def invokedColors (content : PageContent) : List (List Char) :=
  let truncatedLines := truncateLines content.lines
  let processedLines := truncatedLines.map truncateText
  (processedLines.enum.map (fun rl =>
    match content.colors with
    | none => []
    | some cm =>
      match List.lookup (rl.1 + 2) cm with
      | none => []
      | some colorMap =>
        rl.2.enum.filterMap (fun ic =>
          match List.lookup ic.1 colorMap with
          | some color => if color = [] then none else some color
          | none => none))).flatten

/-! ## Word wrapping and HTML cleanup (src/services/api.ts `wordWrap`)

The regex-based cleanup pipeline is embedded with fuel-driven recursion
(the fuel is the input length, always sufficient; it only serves structural
termination). -/

/-- Skip up to and including the first `>` (the end of a `/<[^>]*>/` match);
`none` when no `>` follows, in which case the regex does not match. -/
def dropThroughGt : List Char → Option (List Char)
  | [] => none
  | c :: r => if c = '>' then some r else dropThroughGt r

/-- Fuel-driven worker for `/<[^>]*>/g` removal. -/
def stripTagsAux (fuel : Nat) (l : List Char) : List Char :=
  match fuel with
  | 0 => []
  | fuel + 1 =>
    match l with
    | [] => []
    | c :: r =>
      if c = '<' then
        match dropThroughGt r with
        | some r' => stripTagsAux fuel r'
        | none => c :: stripTagsAux fuel r
      else c :: stripTagsAux fuel r

/-- `text.replace(/<[^>]*>/g, "")`. -/
def stripTags (l : List Char) : List Char := stripTagsAux l.length l

/-- Fuel-driven worker for global replacement of one literal pattern. -/
def replaceAllAux (fuel : Nat) (pat rep : List Char) (l : List Char) : List Char :=
  match fuel with
  | 0 => []
  | fuel + 1 =>
    match l with
    | [] => []
    | c :: r =>
      if pat ≠ [] ∧ pat.isPrefixOf (c :: r) then
        rep ++ replaceAllAux fuel pat rep ((c :: r).drop pat.length)
      else c :: replaceAllAux fuel pat rep r

/-- JS `text.replace(/pat/g, rep)` for a literal pattern `pat`. -/
def replaceAll (pat rep l : List Char) : List Char := replaceAllAux l.length pat rep l

/-- The characters matched by the JS regex class `\s` that can occur here. -/
def jsSpace (c : Char) : Bool :=
  c = ' ' || c = '\t' || c = '\n' || c = '\r' ||
    c = Char.ofNat 11 || c = Char.ofNat 12 || c = Char.ofNat 160

/-- Fuel-driven worker for `text.replace(/\s+/g, " ")`. -/
def collapseWsAux (fuel : Nat) (l : List Char) : List Char :=
  match fuel with
  | 0 => []
  | fuel + 1 =>
    match l with
    | [] => []
    | c :: r =>
      if jsSpace c then ' ' :: collapseWsAux fuel (r.dropWhile jsSpace)
      else c :: collapseWsAux fuel r

/-- `text.replace(/\s+/g, " ")`. -/
def collapseWs (l : List Char) : List Char := collapseWsAux l.length l

/-- JS `String.prototype.trim()` (after whitespace collapsing only plain
spaces can remain at the ends). -/
def trimChars (l : List Char) : List Char :=
  ((l.dropWhile jsSpace).reverse.dropWhile jsSpace).reverse

/-- The cleanup chain of `wordWrap` (src/services/api.ts lines 95-104):
tag removal, the six entity replacements in source order, whitespace
normalization, trim. -/
def cleanUpText (text : List Char) : List Char :=
  trimChars (collapseWs
    (replaceAll ("&#39;".data) [Char.ofNat 39]
      (replaceAll ("&quot;".data) [Char.ofNat 34]
        (replaceAll ("&gt;".data) (">".data)
          (replaceAll ("&lt;".data) ("<".data)
            (replaceAll ("&amp;".data) ("&".data)
              (replaceAll ("&nbsp;".data) (" ".data)
                (stripTags text))))))))

/-- Fuel-driven chunking of an over-long word into `width`-sized slices
(the inner `for` loop of `wordWrap`). -/
def chunksAux (fuel width : Nat) (l : List Char) : List (List Char) :=
  match fuel with
  | 0 => []
  | fuel + 1 =>
    match l with
    | [] => []
    | _ => l.take width :: chunksAux fuel width (l.drop width)

/-- Break a word into chunks of at most `width` characters. -/
def chunks (width : Nat) (l : List Char) : List (List Char) := chunksAux l.length width l

/-- The accumulation loop of `wordWrap` (src/services/api.ts lines 110-135),
written as structural recursion over the word list with the running
`currentLine`; emitted lines appear in source order. -/
def wrapWords (width : Nat) : List (List Char) → List Char → List (List Char)
  | [], currentLine => if currentLine = [] then [] else [currentLine]
  | w :: ws, currentLine =>
    if width < w.length then
      (if currentLine = [] then [] else [currentLine]) ++ chunks width w
        ++ wrapWords width ws []
    else
      let testLine := if currentLine = [] then w else currentLine ++ ' ' :: w
      if testLine.length ≤ width then wrapWords width ws testLine
      else (if currentLine = [] then [] else [currentLine]) ++ wrapWords width ws w

/-- `wordWrap` from src/services/api.ts: empty input yields no lines,
otherwise the cleaned text is split on single spaces and re-flowed. -/
def wordWrap (text : List Char) (width : Nat) : List (List Char) :=
  if text = [] then []
  else wrapWords width ((cleanUpText text).splitOn ' ') []

/-! ## Page registry and article pages (src/pages/registry.ts, src/services/api.ts) -/

/-- A cached article (src/services/api.ts `CachedArticle`). -/
structure CachedArticle where
  title : List Char
  description : List Char
deriving DecidableEq

/-- The in-memory article cache contents (src/services/api.ts `articleCache`),
as seen by the synchronous detail-page builders. -/
structure ArticleCache where
  news : List CachedArticle
  tech : List CachedArticle
  sports : List CachedArticle
deriving DecidableEq

/-- Article category keys of the cache. -/
inductive Category where
  | news
  | tech
  | sports
deriving DecidableEq

/-- `getCachedArticle` from src/services/api.ts: 1-based index, `null`
outside `1..articles.length`. -/
def getCachedArticle (cache : ArticleCache) (category : Category) (index : Nat) :
    Option CachedArticle :=
  let articles :=
    match category with
    | Category.news => cache.news
    | Category.tech => cache.tech
    | Category.sports => cache.sports
  if index < 1 || articles.length < index then none
  else articles.get? (index - 1)

/-- `formatArticleDetailPage` from src/services/api.ts: source banner,
word-wrapped upper-cased title, rule, description clipped to the space
budget, padding, and a `Press N for headlines` footer. -/
def formatArticleDetailPage (article : CachedArticle) (sourceName : List Char)
    (backPage : Nat) : List (List Char) :=
  let lines0 : List (List Char) :=
    [sourceName, [], "================================".data, []]
  let titleLines := wordWrap (article.title.map Char.toUpper) COLUMNS
  let lines1 := lines0 ++ titleLines ++ [[], "--------------------------------".data, []]
  let headerRows : Int := lines1.length
  let maxDescLines : Int := 23 - headerRows - 2 - 1
  let lines2 :=
    if article.description = [] then lines1 ++ ["No description available.".data]
    else
      let descLines := wordWrap article.description COLUMNS
      lines1 ++ descLines.take (max 1 maxDescLines).toNat
        ++ (if maxDescLines < (descLines.length : Int) then ["...".data] else [])
  let lines3 := lines2 ++ List.replicate (21 - lines2.length) []
  lines3 ++ [[], "Press ".data ++ natDigits backPage ++ " for headlines".data]

/-- `getNewsDetailPage` from src/services/api.ts. -/
def getNewsDetailPage (cache : ArticleCache) (articleIndex : Nat) : List (List Char) :=
  match getCachedArticle cache Category.news articleIndex with
  | none =>
    [ "ARTICLE NOT FOUND".data, []
    , "Please visit Page 200 first".data
    , "to load the news headlines.".data, []
    , "Press 200 for headlines".data ]
  | some article => formatArticleDetailPage article ("BBC NEWS".data) 200

/-- `getTechDetailPage` from src/services/api.ts. -/
def getTechDetailPage (cache : ArticleCache) (articleIndex : Nat) : List (List Char) :=
  match getCachedArticle cache Category.tech articleIndex with
  | none =>
    [ "ARTICLE NOT FOUND".data, []
    , "Please visit Page 300 first".data
    , "to load the tech headlines.".data, []
    , "Press 300 for headlines".data ]
  | some article => formatArticleDetailPage article ("THE VERGE".data) 300

/-- `getSportsDetailPage` from src/services/api.ts. -/
def getSportsDetailPage (cache : ArticleCache) (articleIndex : Nat) : List (List Char) :=
  match getCachedArticle cache Category.sports articleIndex with
  | none =>
    [ "ARTICLE NOT FOUND".data, []
    , "Please visit Page 500 first".data
    , "to load the sports headlines.".data, []
    , "Press 500 for headlines".data ]
  | some article => formatArticleDetailPage article ("ESPN SPORTS".data) 500

/-- The dynamic-content loaders referenced by registry entries
(src/services/api.ts); their behavior is environment-dependent, so they are
identified by name here. -/
inductive DynLoader where
  | fetchWorldNews
  | fetchTechNews
  | fetchWeather
  | fetchSports
deriving DecidableEq

/-- `PageDefinition` from src/types/page.ts. -/
structure PageDefinition where
  pageNumber : Nat
  title : List Char
  content : List (List Char)
  dynamicContent : Option DynLoader := none
  colors : Option ColorMap := none
deriving DecidableEq

/-- `createErrorPage` from src/pages/registry.ts. -/
def createErrorPage (requestedPageNumber : Nat) : PageDefinition :=
  { pageNumber := requestedPageNumber
  , title := "Error".data
  , content :=
      [ "PAGE NOT FOUND".data
      , []
      , "Page ".data ++ natDigits requestedPageNumber ++ " does not exist.".data
      , []
      , "Please try another page number.".data
      , []
      , "Press 100 to return to the index.".data ] }

/-- `createDetailPage` from src/pages/registry.ts: the article index is
`pageNumber % 10`. -/
def createDetailPage (pageNumber : Nat) (title : List Char)
    (getContent : Nat → List (List Char)) : PageDefinition :=
  { pageNumber := pageNumber, title := title, content := getContent (pageNumber % 10) }

/-- The static `pageRegistry` object of src/pages/registry.ts, as a lookup
by page number. -/
def pageRegistryLookup (n : Nat) : Option PageDefinition :=
  match n with
  | 100 => some
    { pageNumber := 100
    , title := "Index".data
    , content :=
        [ "WELCOME TO TELETEXT ZERO".data, []
        , "A Slow Web Browser".data, []
        , "Main Sections:".data, []
        , "200 - World News (BBC)".data
        , "300 - Tech News (The Verge)".data
        , "400 - Weather".data
        , "500 - Sports (ESPN)".data, []
        , "666 - ???".data, []
        , "Enter a 3-digit page number".data
        , "to navigate.".data ] }
  | 200 => some
    { pageNumber := 200
    , title := "World News".data
    , content :=
        [ "BBC WORLD NEWS".data, []
        , "LOADING...".data, []
        , "Please wait while we fetch".data
        , "the latest headlines.".data ]
    , dynamicContent := some DynLoader.fetchWorldNews }
  | 300 => some
    { pageNumber := 300
    , title := "Tech News".data
    , content :=
        [ "THE VERGE".data, []
        , "LOADING...".data, []
        , "Please wait while we fetch".data
        , "the latest tech headlines.".data ]
    , dynamicContent := some DynLoader.fetchTechNews }
  | 400 => some
    { pageNumber := 400
    , title := "Weather".data
    , content :=
        [ "WEATHER FORECAST".data, []
        , "LOADING...".data, []
        , "Fetching weather data...".data, []
        , "Location access may be required.".data ]
    , dynamicContent := some DynLoader.fetchWeather }
  | 500 => some
    { pageNumber := 500
    , title := "Sports".data
    , content :=
        [ "ESPN SPORTS".data, []
        , "LOADING...".data, []
        , "Please wait while we fetch".data
        , "the latest sports news.".data ]
    , dynamicContent := some DynLoader.fetchSports }
  | 666 => some
    { pageNumber := 666
    , title := "System Diagnostics".data
    , content :=
        [ "SYSTEM DIAGNOSTICS".data, []
        , "================================".data, []
        , "SIGNAL DECAY............... 99%".data
        , "MEMORY CORRUPTION.......... 87%".data
        , "TEMPORAL DRIFT............. ACTIVE".data, []
        , "================================".data, []
        , "SUBJECT: WATCHING".data
        , "STATUS: AWARE".data, []
        , "WARNING: ANOMALY DETECTED".data, []
        , "DO NOT LOOK BEHIND YOU".data, []
        , "================================".data, []
        , "LAST TRANSMISSION: 1983-10-31".data
        , "ORIGIN: UNKNOWN".data, []
        , "THEY NEVER LEFT".data ] }
  | _ => none

/-- `isDetailPage` from src/pages/registry.ts. -/
def isDetailPage (pageNumber : Nat) : Bool :=
  (201 ≤ pageNumber && pageNumber ≤ 205)
    || (301 ≤ pageNumber && pageNumber ≤ 305)
    || (501 ≤ pageNumber && pageNumber ≤ 505)

/-- `getDetailPageDefinition` from src/pages/registry.ts. -/
def getDetailPageDefinition (cache : ArticleCache) (pageNumber : Nat) : PageDefinition :=
  if 201 ≤ pageNumber ∧ pageNumber ≤ 205 then
    createDetailPage pageNumber ("News Article".data) (getNewsDetailPage cache)
  else if 301 ≤ pageNumber ∧ pageNumber ≤ 305 then
    createDetailPage pageNumber ("Tech Article".data) (getTechDetailPage cache)
  else if 501 ≤ pageNumber ∧ pageNumber ≤ 505 then
    createDetailPage pageNumber ("Sports Article".data) (getSportsDetailPage cache)
  else createErrorPage pageNumber

/-- `getPage` from src/pages/registry.ts: registry first, then detail
sub-pages, then the error page. -/
def getPage (cache : ArticleCache) (pageNumber : Nat) : PageDefinition :=
  match pageRegistryLookup pageNumber with
  | some page => page
  | none =>
    if isDetailPage pageNumber then getDetailPageDefinition cache pageNumber
    else createErrorPage pageNumber

/-- Join content lines with newlines (the rendered text of a page, used to
state substring-containment properties). -/
def joinLines : List (List Char) → List Char
  | [] => []
  | l :: ls => l ++ '\n' :: joinLines ls

/-! ## Screen sequencer (src/components/TeletextScreen.tsx) -/

/-- `ScreenState` from src/components/TeletextScreen.tsx. -/
inductive ScreenState where
  | static
  | loading
  | display
deriving DecidableEq

/-- The component state of `TeletextScreen` relevant to content loading. -/
structure TeletextScreenState where
  screenState : ScreenState
  displayedPage : Nat
  dynamicContent : Option (List (List Char))
  isLoadingDynamic : Bool
deriving DecidableEq

/-- The fixed fallback block from the `catch` arm of `loadDynamicContent`
(src/components/TeletextScreen.tsx line 41). -/
def fallbackDynamicContent : List (List Char) :=
  [ "ERROR LOADING CONTENT".data, [], "Please try again later.".data ]

/-- The page-transition timer firing (src/components/TeletextScreen.tsx
lines 75-80): show the new page and enter `display`; dynamic content loading
starts afterwards. -/
def pageTransitionTimerFire (currentPage : Nat) (s : TeletextScreenState) :
    TeletextScreenState :=
  { s with displayedPage := currentPage, screenState := ScreenState.display }

/-- `loadDynamicContent` (src/components/TeletextScreen.tsx lines 31-48) with
the awaited loader outcome supplied by the environment `env`: a resolved
promise stores its content, a rejected one is caught and replaced by the
fixed fallback block, a page without a loader clears the dynamic content. -/
def loadDynamicContent (env : DynLoader → Except (List Char) (List (List Char)))
    (cache : ArticleCache) (pageNumber : Nat) (s : TeletextScreenState) :
    TeletextScreenState :=
  match (getPage cache pageNumber).dynamicContent with
  | some loader =>
    match env loader with
    | Except.ok content =>
      { s with dynamicContent := some content, isLoadingDynamic := false }
    | Except.error _ =>
      { s with dynamicContent := some fallbackDynamicContent, isLoadingDynamic := false }
  | none => { s with dynamicContent := none }

/-! # Supporting lemmas -/

theorem any_key_eq_true_iff (l : List (List Char × List Char)) (c : List Char) :
    (l.any (fun e => e.1 == c)) = true ↔ c ∈ l.map Prod.fst := by
  induction l with
  | nil => simp
  | cons hd tl ih =>
    simp only [List.any_cons, List.map_cons, List.mem_cons, Bool.or_eq_true, ih,
      beq_iff_eq]
    constructor
    · rintro (h | h)
      · exact Or.inl h.symm
      · exact Or.inr h
    · rintro (h | h)
      · exact Or.inl h.symm
      · exact Or.inr h

theorem find?_key_eq_none (l : List (List Char × List Char)) (c : List Char)
    (h : (l.any (fun e => e.1 == c)) = false) :
    l.find? (fun e => e.1 == c) = none := by
  induction l with
  | nil => rfl
  | cons hd tl ih =>
    simp only [List.any_cons, Bool.or_eq_false_iff] at h
    rw [List.find?_cons, h.1]
    exact ih h.2

/-! ## Lemmas on decimal rendering -/

theorem natDigitsAux_congr :
    ∀ (f1 : Nat), ∀ (n f2 : Nat), n < f1 → n < f2 →
      natDigitsAux f1 n = natDigitsAux f2 n := by
  intro f1
  induction f1 with
  | zero => intro n f2 h1 _; omega
  | succ g ih =>
    intro n f2 h1 h2
    match f2, h2 with
    | f2' + 1, _ =>
      show natDigitsAux (g + 1) n = natDigitsAux (f2' + 1) n
      simp only [natDigitsAux]
      by_cases h10 : n < 10
      · simp [h10]
      · simp only [h10, if_false]
        have hn : 10 ≤ n := by omega
        have hdiv : n / 10 < n := Nat.div_lt_self (by omega) (by omega)
        rw [ih (n / 10) f2' (by omega) (by omega)]

/-- One-step unfolding of `natDigits`. -/
theorem natDigits_eq (n : Nat) :
    natDigits n =
      if n < 10 then [Char.ofNat (48 + n)]
      else natDigits (n / 10) ++ [Char.ofNat (48 + n % 10)] := by
  show natDigitsAux (n + 1) n = _
  simp only [natDigitsAux]
  by_cases h10 : n < 10
  · simp [h10]
  · simp only [h10, if_false]
    have hdiv : n / 10 < n := Nat.div_lt_self (by omega) (by omega)
    rw [natDigitsAux_congr n (n / 10) (n / 10 + 1) (by omega) (by omega)]
    rfl

theorem natDigits_length_le :
    ∀ (k n : Nat), n < 10 ^ (k + 1) → (natDigits n).length ≤ k + 1 := by
  intro k
  induction k with
  | zero =>
    intro n h
    rw [natDigits_eq]
    have : n < 10 := by simpa using h
    simp [this]
  | succ j ih =>
    intro n h
    rw [natDigits_eq]
    by_cases h10 : n < 10
    · simp [h10]
    · simp only [h10, if_false, List.length_append, List.length_cons,
        List.length_nil]
      have hd : n / 10 < 10 ^ (j + 1) := by
        apply Nat.div_lt_of_lt_mul
        calc n < 10 ^ (j + 1 + 1) := h
          _ = 10 * 10 ^ (j + 1) := by ring
      have := ih (n / 10) hd
      omega

theorem natDigits_length_le_two (n : Nat) (h : n < 100) :
    (natDigits n).length ≤ 2 :=
  natDigits_length_le 1 n (by norm_num; omega)

theorem natDigits_length_le_three (n : Nat) (h : n < 1000) :
    (natDigits n).length ≤ 3 :=
  natDigits_length_le 2 n (by norm_num; omega)

/-! ## Lemmas on header formatting -/

theorem padStart_length (w : Nat) (l : List Char) (h : l.length ≤ w) :
    (padStart w l).length = w := by
  simp [padStart]
  omega

theorem formatTime_length (h m s : Nat) (hh : h < 24) (hm : m < 60) (hs : s < 60) :
    (formatTime h m s).length = 8 := by
  have l1 := padStart_length 2 (natDigits h) (natDigits_length_le_two h (by omega))
  have l2 := padStart_length 2 (natDigits m) (natDigits_length_le_two m (by omega))
  have l3 := padStart_length 2 (natDigits s) (natDigits_length_le_two s (by omega))
  simp [formatTime, l1, l2, l3]

theorem formatPageNumber_length (n : Nat) (h : n ≤ 999) :
    (formatPageNumber n).length = 4 := by
  have := padStart_length 3 (natDigits n) (natDigits_length_le_three n (by omega))
  simp [formatPageNumber, this]

theorem handleKeyDown_not_digit (s : NavState) (k : List Char)
    (h : isDigitKey k = false) : handleKeyDown s k = s := by
  match k with
  | [] => rfl
  | [c] =>
    simp only [isDigitKey] at h
    simp [handleKeyDown, h]
  | c1 :: c2 :: r => rfl

theorem handleKeyDown_full (s : NavState) (k : List Char)
    (h : 3 ≤ s.pageBuffer.length) : handleKeyDown s k = s := by
  match k with
  | [] => rfl
  | [c] =>
    by_cases hc : c.isDigit
    · simp [handleKeyDown, addDigit, hc, h]
    · simp [handleKeyDown, hc]
  | c1 :: c2 :: r => rfl

theorem foldl_handleKeyDown_filter (keys : List (List Char)) :
    ∀ (s : NavState),
      keys.foldl handleKeyDown s = (keys.filter isDigitKey).foldl handleKeyDown s := by
  induction keys with
  | nil => intro s; rfl
  | cons k ks ih =>
    intro s
    by_cases hk : isDigitKey k = true
    · rw [List.foldl_cons, List.filter_cons_of_pos hk, List.foldl_cons, ih]
    · have hk' : isDigitKey k = false := by
        cases h : isDigitKey k
        · rfl
        · exact absurd h hk
      rw [List.foldl_cons, handleKeyDown_not_digit s k hk',
        List.filter_cons_of_neg (by simp [hk']), ih]

theorem filter_eq_map_digitChars (keys : List (List Char)) :
    keys.filter isDigitKey = (digitChars keys).map (fun c => [c]) := by
  induction keys with
  | nil => rfl
  | cons k ks ih =>
    match k with
    | [] => simpa [digitChars, isDigitKey, List.filter_cons] using ih
    | [c] =>
      by_cases hc : c.isDigit
      · simpa [digitChars, isDigitKey, List.filter_cons, hc] using ih
      · simpa [digitChars, isDigitKey, List.filter_cons, hc] using ih
    | c1 :: c2 :: r =>
      simpa [digitChars, isDigitKey, List.filter_cons] using ih

theorem foldl_handleKeyDown_full (keys : List (List Char)) :
    ∀ (s : NavState), 3 ≤ s.pageBuffer.length →
      keys.foldl handleKeyDown s = s := by
  induction keys with
  | nil => intro s _; rfl
  | cons k ks ih =>
    intro s hs
    rw [List.foldl_cons, handleKeyDown_full s k hs, ih s hs]

/-- Bursting a list of digit characters into the handler: below three total
digits the buffer just accumulates; from three on, the buffer fills to exactly
its first three digits and one resolution callback is queued. -/
theorem foldl_digits (ds : List Char) :
    ∀ (s : NavState), (∀ c ∈ ds, c.isDigit = true) → s.pending = [] →
      s.pageBuffer.length ≤ 2 →
      (ds.map (fun c => [c])).foldl handleKeyDown s =
        (if s.pageBuffer.length + ds.length ≤ 2 then
          { s with pageBuffer := s.pageBuffer ++ ds }
        else
          { s with pageBuffer := (s.pageBuffer ++ ds).take 3,
                   pending := [parseBuf ((s.pageBuffer ++ ds).take 3)] }) := by
  induction ds with
  | nil =>
    intro s _ _ hb
    simp only [List.map_nil, List.foldl_nil, List.length_nil, Nat.add_zero,
      List.append_nil]
    rw [if_pos hb]
  | cons d ds ih =>
    intro s hd hp hb
    have hdd : d.isDigit = true := hd d (List.mem_cons_self d ds)
    have hstep : handleKeyDown s [d] = addDigit s [d] := by simp [handleKeyDown, hdd]
    rw [List.map_cons, List.foldl_cons, hstep]
    by_cases h3 : s.pageBuffer.length = 2
    · -- third digit: buffer fills and the resolution callback is queued
      have hfull : (s.pageBuffer ++ [d]).length = 3 := by simp [h3]
      have : addDigit s [d] =
          { s with pageBuffer := s.pageBuffer ++ [d],
                   pending := [parseBuf (s.pageBuffer ++ [d])] } := by
        simp [addDigit, hdd, h3, hfull, hp]
      rw [this, foldl_handleKeyDown_full (ds.map (fun c => [c])) _ (by simp [hfull])]
      have hcond : ¬ (s.pageBuffer.length + (d :: ds).length ≤ 2) := by
        simp [h3]
      rw [if_neg hcond]
      have htake : (s.pageBuffer ++ d :: ds).take 3 = s.pageBuffer ++ [d] := by
        have : s.pageBuffer ++ d :: ds = (s.pageBuffer ++ [d]) ++ ds := by simp
        rw [this, ← hfull, List.take_left]
      rw [htake]
    · -- buffer still short: append and recurse
      have hlt : s.pageBuffer.length ≤ 1 := by omega
      have hne : ¬ ((s.pageBuffer ++ [d]).length = 3) := by
        simp only [List.length_append, List.length_cons, List.length_nil]
        omega
      have : addDigit s [d] = { s with pageBuffer := s.pageBuffer ++ [d] } := by
        simp only [addDigit, hdd, if_true]
        rw [if_neg (by omega), if_neg hne]
      rw [this,
        ih { s with pageBuffer := s.pageBuffer ++ [d] }
          (fun c hc => hd c (List.mem_cons_of_mem d hc)) hp
          (by simp only [List.length_append, List.length_cons, List.length_nil]; omega)]
      by_cases hc2 : s.pageBuffer.length + (d :: ds).length ≤ 2
      · rw [if_pos (by simp only [List.length_append, List.length_cons,
          List.length_nil]; simp only [List.length_cons] at hc2; omega),
          if_pos hc2]
        simp
      · rw [if_neg (by simp only [List.length_append, List.length_cons,
          List.length_nil]; simp only [List.length_cons] at hc2; omega),
          if_neg hc2]
        simp

/-! ## Lemmas on the content formatter, navigation and word wrapping -/

theorem truncateText_length_le (t : List Char) : (truncateText t).length ≤ 40 := by
  unfold truncateText COLUMNS
  split
  · omega
  · simp

theorem truncateLines_length_le (L : List (List Char)) :
    (truncateLines L).length ≤ 23 := by
  unfold truncateLines CONTENT_ROWS
  split
  · omega
  · simp

theorem mem_enumFrom_snd {α : Type} :
    ∀ (l : List α) (i : Nat) (p : Nat × α), p ∈ List.enumFrom i l → p.2 ∈ l := by
  intro l
  induction l with
  | nil => intro i p h; simp [List.enumFrom] at h
  | cons a as ih =>
    intro i p h
    simp only [List.enumFrom, List.mem_cons] at h
    rcases h with h | h
    · subst h; simp
    · exact List.mem_cons_of_mem a (ih (i + 1) p h)

theorem mem_enum_snd {α : Type} (l : List α) (p : Nat × α) (h : p ∈ l.enum) :
    p.2 ∈ l := mem_enumFrom_snd l 0 p h

theorem renderLine_length (colorMap : List (Nat × List Char)) (line : List Char) :
    (renderLine colorMap line).length = line.length := by
  simp [renderLine]

theorem contentAreaRows_length_le (content : PageContent) :
    (contentAreaRows content).length ≤ 23 := by
  unfold contentAreaRows
  simp only [List.length_map, List.enum_length]
  exact truncateLines_length_le content.lines

theorem contentAreaRows_width_le (content : PageContent) (r : RenderRow)
    (hr : r ∈ contentAreaRows content) : rowWidth r ≤ 40 := by
  unfold contentAreaRows at hr
  simp only [List.mem_map] at hr
  obtain ⟨rl, hmem, hrl⟩ := hr
  have h2 : rl.2 ∈ (truncateLines content.lines).map truncateText :=
    mem_enum_snd _ rl hmem
  simp only [List.mem_map] at h2
  obtain ⟨orig, _, horig⟩ := h2
  have hlen : rl.2.length ≤ 40 := by
    rw [← horig]; exact truncateText_length_le orig
  subst hrl
  cases hcol : content.colors with
  | none => simpa [rowWidth, hcol]
  | some cm =>
    cases hlk : List.lookup (rl.1 + 2) cm with
    | none => simpa [rowWidth, hcol, hlk]
    | some colorMap =>
      simp [rowWidth, hcol, hlk, renderLine_length, hlen]

theorem getTeletextColorHex_invalid (c : List Char)
    (h : isValidTeletextColor c = false) : getTeletextColorHex c = none := by
  unfold getTeletextColorHex
  rw [find?_key_eq_none TELETEXT_COLORS c h]
  rfl

theorem digitChars_isDigit (ks : List (List Char)) (c : Char)
    (hc : c ∈ digitChars ks) : c.isDigit = true := by
  simp only [digitChars, List.mem_filterMap] at hc
  obtain ⟨k, _, hk⟩ := hc
  match k with
  | [] => simp at hk
  | [d] =>
    by_cases hd : d.isDigit
    · simp only [hd, if_true] at hk
      cases hk
      exact hd
    · simp only [hd] at hk
      simp at hk
  | a :: b :: r => simp at hk

theorem chunksAux_length_le :
    ∀ (fuel width : Nat) (l c : List Char), c ∈ chunksAux fuel width l →
      c.length ≤ width := by
  intro fuel
  induction fuel with
  | zero => intro width l c hc; simp [chunksAux] at hc
  | succ f ih =>
    intro width l c hc
    match l with
    | [] => simp [chunksAux] at hc
    | a :: r =>
      simp only [chunksAux, List.mem_cons] at hc
      rcases hc with hc | hc
      · subst hc
        exact List.length_take_le width (a :: r)
      · exact ih width ((a :: r).drop width) c hc

theorem wrapWords_length_le (width : Nat) :
    ∀ (ws : List (List Char)) (currentLine : List Char),
      currentLine.length ≤ width →
      ∀ line ∈ wrapWords width ws currentLine, line.length ≤ width := by
  intro ws
  induction ws with
  | nil =>
    intro currentLine hcl line hline
    by_cases hc : currentLine = []
    · simp [wrapWords, hc] at hline
    · simp only [wrapWords, if_neg hc, List.mem_singleton] at hline
      subst hline
      exact hcl
  | cons w ws ih =>
    intro currentLine hcl line hline
    by_cases hlong : width < w.length
    · simp only [wrapWords, if_pos hlong, List.mem_append] at hline
      rcases hline with (hline | hline) | hline
      · by_cases hc : currentLine = []
        · simp [hc] at hline
        · simp only [if_neg hc, List.mem_singleton] at hline
          subst hline; exact hcl
      · exact chunksAux_length_le w.length width w line hline
      · exact ih [] (by simp) line hline
    · simp only [wrapWords, if_neg hlong] at hline
      by_cases htest :
          (if currentLine = [] then w else currentLine ++ ' ' :: w).length ≤ width
      · rw [if_pos htest] at hline
        exact ih _ htest line hline
      · rw [if_neg htest] at hline
        simp only [List.mem_append] at hline
        rcases hline with hline | hline
        · by_cases hc : currentLine = []
          · simp [hc] at hline
          · simp only [if_neg hc, List.mem_singleton] at hline
            subst hline; exact hcl
        · exact ih w (by omega) line hline

/-- A general description of `joinLines`-containment: a substring of a
member line is a substring of the joined text. -/
theorem infix_joinLines_of_mem (x l : List Char) (L : List (List Char))
    (hx : List.IsInfix x l) (hl : l ∈ L) : List.IsInfix x (joinLines L) := by
  induction L with
  | nil => simp at hl
  | cons a ls ih =>
    rcases List.mem_cons.mp hl with h | h
    · subst h
      exact hx.trans ((List.prefix_append l ('\n' :: joinLines ls)).isInfix)
    · refine (ih h).trans ?_
      have heq : (a ++ ['\n']) ++ joinLines ls = joinLines (a :: ls) := by
        simp [joinLines]
      rw [← heq]
      exact (List.suffix_append _ _).isInfix

/-! # Claim theorems -/

/-- C7: `truncateText` returns its argument unchanged at length at most 40
and the first 40 characters otherwise; `truncateLines` returns its argument
unchanged at length at most 23 and the first 23 entries (in order) otherwise;
both are total functions with bounded output. -/
theorem C7_truncation_contract (s : List Char) (L : List (List Char)) :
    (s.length ≤ 40 → truncateText s = s)
    ∧ (40 < s.length → truncateText s = s.take 40)
    ∧ (truncateText s).length ≤ 40
    ∧ (L.length ≤ 23 → truncateLines L = L)
    ∧ (23 < L.length → truncateLines L = L.take 23)
    ∧ (truncateLines L).length ≤ 23 := by
  refine ⟨?_, ?_, truncateText_length_le s, ?_, ?_, truncateLines_length_le L⟩
  · intro h
    simp [truncateText, COLUMNS, h]
  · intro h
    simp [truncateText, COLUMNS]
  · intro h
    simp [truncateLines, CONTENT_ROWS, h]
  · intro h
    simp [truncateLines, CONTENT_ROWS]

/-- C7 witness: both truncation operations evaluated at concrete inputs. -/
theorem C7_truncation_contract_witness :
    ("HELLO".data.length ≤ 40)
    ∧ truncateText ("HELLO".data) = "HELLO".data
    ∧ (23 < (List.replicate 25 ("x".data)).length)
    ∧ truncateLines (List.replicate 25 ("x".data)) =
        (List.replicate 25 ("x".data)).take 23 := by
  refine ⟨by decide, ?_, by decide, ?_⟩
  · exact (C7_truncation_contract ("HELLO".data) []).1 (by decide)
  · exact (C7_truncation_contract [] (List.replicate 25 ("x".data))).2.2.2.2.1 (by decide)

/-- C8: both truncation operations are idempotent. -/
theorem C8_truncation_idempotent (s : List Char) (L : List (List Char)) :
    truncateText (truncateText s) = truncateText s
    ∧ truncateLines (truncateLines L) = truncateLines L := by
  constructor
  · by_cases h : s.length ≤ 40
    · simp [truncateText, COLUMNS, h]
    · have h40 : (s.take 40).length ≤ 40 := List.length_take_le 40 s
      simp [truncateText, COLUMNS, h, h40]
  · by_cases h : L.length ≤ 23
    · simp [truncateLines, CONTENT_ROWS, h]
    · have h23 : (L.take 23).length ≤ 23 := List.length_take_le 23 L
      simp [truncateLines, CONTENT_ROWS, h, h23]

/-- C9: `isValidTeletextColor` accepts exactly the 8 canonical lowercase
palette keys; for an accepted key the hex lookup yields a canonical value of
the shape `#` plus six hex digits, and for any other string the validator
answers `false` (and the lookup finds nothing). -/
theorem C9_palette_contract (c : List Char) :
    (isValidTeletextColor c = true ↔ c ∈ teletextColorNames)
    ∧ (isValidTeletextColor c = true → hexOk (getTeletextColorHex c) = true)
    ∧ (isValidTeletextColor c = false → getTeletextColorHex c = none) := by
  refine ⟨any_key_eq_true_iff TELETEXT_COLORS c, ?_, getTeletextColorHex_invalid c⟩
  intro hv
  have hc : c ∈ teletextColorNames := (any_key_eq_true_iff TELETEXT_COLORS c).mp hv
  simp only [teletextColorNames, TELETEXT_COLORS, List.map_cons, List.map_nil,
    List.mem_cons, List.not_mem_nil, or_false] at hc
  rcases hc with rfl | rfl | rfl | rfl | rfl | rfl | rfl | rfl <;> decide

/-- C9 witness: the contract evaluated at the canonical key `red`. -/
theorem C9_palette_contract_witness :
    isValidTeletextColor ("red".data) = true
    ∧ hexOk (getTeletextColorHex ("red".data)) = true := by
  exact ⟨by decide, (C9_palette_contract ("red".data)).2.1 (by decide)⟩

/-- C10: every line produced by `wordWrap` is at most `width` characters
long (over-long words are chunked), for any input text and any positive
width — in particular dynamic content is within the 40-column bound at the
default width before any truncation. -/
theorem C10_wordWrap_width (text : List Char) (width : Nat) (line : List Char)
    (hw : 1 ≤ width) (hl : line ∈ wordWrap text width) : line.length ≤ width := by
  unfold wordWrap at hl
  by_cases ht : text = []
  · simp [ht] at hl
  · rw [if_neg ht] at hl
    exact wrapWords_length_le width ((cleanUpText text).splitOn ' ') [] (by simp) line hl

/-- C10 witness: the bound evaluated on a concrete wrapped text at the
default width 40. -/
theorem C10_wordWrap_width_witness :
    (1 ≤ 40)
    ∧ ("alpha beta".data ∈ wordWrap ("alpha beta".data) 40)
    ∧ "alpha beta".data.length ≤ 40 := by
  refine ⟨by decide, by decide, ?_⟩
  exact C10_wordWrap_width ("alpha beta".data) 40 ("alpha beta".data)
    (by decide) (by decide)

/-- C4 (amended): the ContentArea render is total and attaches cells only
within the truncated 23x40 bounds, and a color value outside the palette
finds no hex (`getTeletextColorHex` yields `undefined`); however no
validation via `isValidTeletextColor` happens before the lookup — see the
counterexample, where the lookup is invoked with an invalid color. -/
theorem C4_render_colors (content : PageContent) (c : List Char)
    (h : isValidTeletextColor c = false) :
    getTeletextColorHex c = none
    ∧ (contentAreaRows content).length ≤ 23
    ∧ (contentAreaRows content).all (fun r => decide (rowWidth r ≤ 40)) = true := by
  refine ⟨getTeletextColorHex_invalid c h, contentAreaRows_length_le content, ?_⟩
  rw [List.all_eq_true]
  intro r hr
  exact decide_eq_true (contentAreaRows_width_le content r hr)

/-- C4 witness: the amended render properties evaluated on a concrete page
with an out-of-palette color annotation. -/
theorem C4_render_colors_witness :
    isValidTeletextColor ("purple".data) = false
    ∧ getTeletextColorHex ("purple".data) = none
    ∧ (contentAreaRows { lines := ["HI".data], colors := some [(2, [(0, "purple".data)])] }).length ≤ 23 := by
  have h := C4_render_colors
    { lines := ["HI".data], colors := some [(2, [(0, "purple".data)])] }
    ("purple".data) (by decide)
  exact ⟨by decide, h.1, h.2.1⟩

/-- C4 counterexample: rendering a page whose color map holds the invalid
color `purple` at an in-bounds cell does invoke the palette hex lookup with
that invalid color, so the claimed pre-validation (lookup never invoked with
an invalid color) does not hold of the code. -/
theorem C4_render_colors_counterexample :
    invokedColors { lines := ["HI".data], colors := some [(2, [(0, "purple".data)])] }
        = ["purple".data]
    ∧ isValidTeletextColor ("purple".data) = false := by
  constructor
  · decide
  · decide

/-- C5: an addressable page number with no registry entry and outside the
detail sub-page ranges resolves (without any exception path) to the fixed
error page, whose content contains `PAGE NOT FOUND`, names the requested
number, and fits in 23 rows of at most 40 characters. -/
theorem C5_unknown_page (cache : ArticleCache) (n : Nat) (hn : n ≤ 999)
    (hreg : pageRegistryLookup n = none) (hdet : isDetailPage n = false) :
    getPage cache n = createErrorPage n
    ∧ List.IsInfix ("PAGE NOT FOUND".data) (joinLines (getPage cache n).content)
    ∧ List.IsInfix (natDigits n) (joinLines (getPage cache n).content)
    ∧ (getPage cache n).content.length ≤ 23
    ∧ (getPage cache n).content.all (fun l => decide (l.length ≤ 40)) = true := by
  have hpage : getPage cache n = createErrorPage n := by
    simp [getPage, hreg, hdet]
  refine ⟨hpage, ?_, ?_, ?_, ?_⟩
  · rw [hpage]
    exact infix_joinLines_of_mem _ ("PAGE NOT FOUND".data) _
      (List.infix_refl _) (by simp [createErrorPage])
  · rw [hpage]
    exact infix_joinLines_of_mem _
      ("Page ".data ++ natDigits n ++ " does not exist.".data) _
      ⟨"Page ".data, " does not exist.".data, by simp⟩
      (by simp [createErrorPage])
  · rw [hpage]
    simp [createErrorPage]
  · rw [hpage]
    rw [List.all_eq_true]
    intro l hl
    simp only [createErrorPage, List.mem_cons, List.not_mem_nil, or_false] at hl
    have hlen : (natDigits n).length ≤ 3 := natDigits_length_le_three n (by omega)
    rcases hl with rfl | rfl | rfl | rfl | rfl | rfl | rfl <;>
      refine decide_eq_true ?_ <;>
      simp [List.length_append] <;> omega

/-- C5 witness: page 999 is unregistered and outside the detail ranges, and
resolves to the in-bounds `PAGE NOT FOUND` page naming 999. -/
theorem C5_unknown_page_witness :
    (999 ≤ 999)
    ∧ pageRegistryLookup 999 = none
    ∧ isDetailPage 999 = false
    ∧ getPage ⟨[], [], []⟩ 999 = createErrorPage 999
    ∧ List.IsInfix ("PAGE NOT FOUND".data) (joinLines (getPage ⟨[], [], []⟩ 999).content)
    ∧ List.IsInfix (natDigits 999) (joinLines (getPage ⟨[], [], []⟩ 999).content)
    ∧ (getPage ⟨[], [], []⟩ 999).content.length ≤ 23 := by
  have h := C5_unknown_page ⟨[], [], []⟩ 999 (by decide) (by decide) (by decide)
  exact ⟨by decide, by decide, by decide, h.1, h.2.1, h.2.2.1, h.2.2.2.1⟩

/-- C6 (amended): a rejected dynamic-content promise is caught inside
`loadDynamicContent` and replaced by the fixed fallback block, loading ends,
and the screen remains in the `display` state it entered at the transition
timer — the failure never escapes.  The fallback indicates the failure but
(see the counterexample) does not name a suggested fallback page. -/
theorem C6_dynamic_failure (env : DynLoader → Except (List Char) (List (List Char)))
    (cache : ArticleCache) (target : Nat) (s : TeletextScreenState)
    (loader : DynLoader) (e : List Char)
    (hl : (getPage cache target).dynamicContent = some loader)
    (he : env loader = Except.error e) :
    (loadDynamicContent env cache target (pageTransitionTimerFire target s)).screenState
        = ScreenState.display
    ∧ (loadDynamicContent env cache target (pageTransitionTimerFire target s)).dynamicContent
        = some fallbackDynamicContent
    ∧ (loadDynamicContent env cache target (pageTransitionTimerFire target s)).isLoadingDynamic
        = false
    ∧ (loadDynamicContent env cache target (pageTransitionTimerFire target s)).displayedPage
        = target := by
  simp [loadDynamicContent, pageTransitionTimerFire, hl, he]

/-- C6 witness: a failing `fetchWorldNews` for page 200, caught and replaced
by the fallback block with the screen displaying. -/
theorem C6_dynamic_failure_witness :
    ((getPage ⟨[], [], []⟩ 200).dynamicContent = some DynLoader.fetchWorldNews)
    ∧ ((fun _ : DynLoader => (Except.error ("network error".data) : Except (List Char) (List (List Char)))) DynLoader.fetchWorldNews = Except.error ("network error".data))
    ∧ (loadDynamicContent (fun _ => Except.error ("network error".data)) ⟨[], [], []⟩ 200
        (pageTransitionTimerFire 200 ⟨ScreenState.static, 100, none, false⟩)).screenState
        = ScreenState.display
    ∧ (loadDynamicContent (fun _ => Except.error ("network error".data)) ⟨[], [], []⟩ 200
        (pageTransitionTimerFire 200 ⟨ScreenState.static, 100, none, false⟩)).dynamicContent
        = some fallbackDynamicContent := by
  have h := C6_dynamic_failure (fun _ => Except.error ("network error".data))
    ⟨[], [], []⟩ 200 ⟨ScreenState.static, 100, none, false⟩
    DynLoader.fetchWorldNews ("network error".data) (by decide) rfl
  exact ⟨by decide, rfl, h.1, h.2.1⟩

/-- C6 counterexample: the fixed fallback block contains no digit at all, so
it cannot name any suggested fallback page number — the claim's "names a
suggested fallback page" part fails on the code. -/
theorem C6_dynamic_failure_counterexample :
    (joinLines fallbackDynamicContent).all (fun c => !c.isDigit) = true
    ∧ ¬ List.IsInfix (natDigits 100) (joinLines fallbackDynamicContent) := by
  constructor
  · decide
  · decide

/-- C1 (amended): three digit keystrokes from an empty buffer, once the
synchronously queued zero-delay resolution has run, leave `current` at the
base-10 parse of the three digits, an empty buffer, and exactly one
page-change event carrying that number.  (The resolution itself is deferred
through `setTimeout`, so it is not atomic with the third append — see the
counterexample.) -/
theorem C1_three_digit_resolution (p : Nat) (d1 d2 d3 : Char)
    (h1 : d1.isDigit = true) (h2 : d2.isDigit = true) (h3 : d3.isDigit = true) :
    processKeys p [[d1], [d2], [d3]] =
      { currentPage := 100 * digitVal d1 + 10 * digitVal d2 + digitVal d3
      , pageBuffer := []
      , isNavigating := false
      , events := [100 * digitVal d1 + 10 * digitVal d2 + digitVal d3]
      , pending := [] }
    ∧ parseBuf [d1, d2, d3] = 100 * digitVal d1 + 10 * digitVal d2 + digitVal d3 := by
  have hparse : parseBuf [d1, d2, d3]
      = 100 * digitVal d1 + 10 * digitVal d2 + digitVal d3 := by
    simp only [parseBuf, List.foldl_cons, List.foldl_nil, digitVal]
    ring
  refine ⟨?_, hparse⟩
  unfold processKeys
  have hmap : ([[d1], [d2], [d3]] : List (List Char))
      = ([d1, d2, d3] : List Char).map (fun c => [c]) := by simp
  rw [hmap, foldl_digits [d1, d2, d3] (initialState p)
    (by
      intro c hc
      simp only [List.mem_cons, List.not_mem_nil, or_false] at hc
      rcases hc with rfl | rfl | rfl <;> assumption)
    rfl (by simp [initialState])]
  rw [if_neg (by simp [initialState])]
  simp [initialState, flush, resolvePending, hparse]

/-- C1 witness: dialing `3 0 0` from page 100 navigates to page 300 with an
empty buffer and the single event 300. -/
theorem C1_three_digit_resolution_witness :
    ('3'.isDigit = true)
    ∧ ('0'.isDigit = true)
    ∧ processKeys 100 [['3'], ['0'], ['0']] =
        { currentPage := 300, pageBuffer := [], isNavigating := false,
          events := [300], pending := [] } := by
  refine ⟨by decide, by decide, ?_⟩
  exact ((C1_three_digit_resolution 100 '3' '0' '0'
    (by decide) (by decide) (by decide)).1).trans (by decide)

/-- C1 counterexample: after the third digit's synchronous buffer update and
before the scheduled zero-delay callback runs, the hook state is externally
observable with a length-3 buffer, the old `current`, no emitted event, and
the resolution still pending — the composite step is not atomic as claimed. -/
theorem C1_three_digit_resolution_counterexample :
    ((([['1'], ['2'], ['3']] : List (List Char)).foldl handleKeyDown
        (initialState 100)).pageBuffer.length = 3)
    ∧ ((([['1'], ['2'], ['3']] : List (List Char)).foldl handleKeyDown
        (initialState 100)).currentPage = 100)
    ∧ ((([['1'], ['2'], ['3']] : List (List Char)).foldl handleKeyDown
        (initialState 100)).events = [])
    ∧ ((([['1'], ['2'], ['3']] : List (List Char)).foldl handleKeyDown
        (initialState 100)).pending = [123]) := by
  refine ⟨?_, ?_, ?_, ?_⟩ <;> decide

/-- C2: keystrokes that are not exactly one `[0-9]` character have no effect
at all on the navigation state, and whenever at least three digit keystrokes
occur the burst resolves to exactly one navigation whose page is the base-10
parse of the first three digit characters seen, in order, leaving an empty
buffer. -/
theorem C2_keystroke_classification (p : Nat) (ks : List (List Char)) :
    processKeys p ks = processKeys p (ks.filter isDigitKey)
    ∧ (3 ≤ (digitChars ks).length →
        processKeys p ks =
          { currentPage := parseBuf ((digitChars ks).take 3)
          , pageBuffer := []
          , isNavigating := false
          , events := [parseBuf ((digitChars ks).take 3)]
          , pending := [] }) := by
  constructor
  · unfold processKeys
    rw [foldl_handleKeyDown_filter ks (initialState p)]
  · intro h3
    unfold processKeys
    rw [foldl_handleKeyDown_filter ks (initialState p), filter_eq_map_digitChars]
    rw [foldl_digits (digitChars ks) (initialState p)
      (fun c hc => digitChars_isDigit ks c hc) rfl (by simp [initialState])]
    rw [if_neg (by simp [initialState]; omega)]
    simp [initialState, flush, resolvePending]

/-- C2 witness: interleaving letter and control keys among the digits
`1 2 3` changes nothing, and the burst navigates to page 123. -/
theorem C2_keystroke_classification_witness :
    (3 ≤ (digitChars [['x'], ['1'], ['2'], "Enter".data, ['3'], ['4']]).length)
    ∧ processKeys 100 [['x'], ['1'], ['2'], "Enter".data, ['3'], ['4']] =
        processKeys 100 (([['x'], ['1'], ['2'], "Enter".data, ['3'], ['4']] : List (List Char)).filter isDigitKey)
    ∧ processKeys 100 [['x'], ['1'], ['2'], "Enter".data, ['3'], ['4']] =
        { currentPage := 123, pageBuffer := [], isNavigating := false,
          events := [123], pending := [] } := by
  have h := C2_keystroke_classification 100 [['x'], ['1'], ['2'], "Enter".data, ['3'], ['4']]
  refine ⟨by decide, h.1, ?_⟩
  exact (h.2 (by decide)).trans (by decide)

/-- C3: within the length budget the header line is exactly 40 characters,
starts with the page name, ends with the 8-character zero-padded clock,
contains the `P`-token with the page number zero-padded to 3 digits, and the
interior space is split as evenly as possible with the odd remainder space
placed after the center token. -/
theorem C3_header_format (pageName : List Char) (n h m s : Nat)
    (hname : pageName.length + 4 + 8 ≤ 40) (hn : n ≤ 999)
    (hh : h < 24) (hm : m < 60) (hs : s < 60) :
    (headerText pageName n h m s).length = 40
    ∧ List.IsPrefix pageName (headerText pageName n h m s)
    ∧ List.IsSuffix (formatTime h m s) (headerText pageName n h m s)
    ∧ (formatTime h m s).length = 8
    ∧ List.IsInfix (formatPageNumber n) (headerText pageName n h m s)
    ∧ formatPageNumber n = 'P' :: padStart 3 (natDigits n)
    ∧ (padStart 3 (natDigits n)).length = 3
    ∧ spacesBeforeCenter pageName n h m s ≤ spacesAfterCenter pageName n h m s
    ∧ spacesAfterCenter pageName n h m s ≤ spacesBeforeCenter pageName n h m s + 1 := by
  have hpn : (formatPageNumber n).length = 4 := formatPageNumber_length n hn
  have hft : (formatTime h m s).length = 8 := formatTime_length h m s hh hm hs
  have htot : headerTotalSpaces pageName n h m s
      = 40 - (pageName.length + 12) := by
    simp [headerTotalSpaces, hpn, hft, COLUMNS]
  refine ⟨?_, ?_, ?_, hft, ?_, rfl,
    padStart_length 3 (natDigits n) (natDigits_length_le_three n (by omega)),
    ?_, ?_⟩
  · simp only [headerText, List.length_append, List.length_replicate, hpn, hft,
      spacesAfterCenter, spacesBeforeCenter, htot]
    omega
  · unfold headerText
    simp only [List.append_assoc]
    exact List.prefix_append pageName _
  · unfold headerText
    exact List.suffix_append _ _
  · exact ⟨pageName ++ List.replicate (spacesBeforeCenter pageName n h m s) ' ',
      List.replicate (spacesAfterCenter pageName n h m s) ' ' ++ formatTime h m s,
      by simp [headerText]⟩
  · simp only [spacesAfterCenter, spacesBeforeCenter]
    omega
  · simp only [spacesAfterCenter, spacesBeforeCenter]
    omega

/-- C3 witness: the header for page name `TELETEXT`, page 100, at 12:34:56. -/
theorem C3_header_format_witness :
    ("TELETEXT".data.length + 4 + 8 ≤ 40)
    ∧ (headerText ("TELETEXT".data) 100 12 34 56).length = 40
    ∧ List.IsPrefix ("TELETEXT".data) (headerText ("TELETEXT".data) 100 12 34 56)
    ∧ List.IsSuffix (formatTime 12 34 56) (headerText ("TELETEXT".data) 100 12 34 56)
    ∧ (formatTime 12 34 56).length = 8
    ∧ List.IsInfix (formatPageNumber 100) (headerText ("TELETEXT".data) 100 12 34 56)
    ∧ spacesBeforeCenter ("TELETEXT".data) 100 12 34 56
        ≤ spacesAfterCenter ("TELETEXT".data) 100 12 34 56 := by
  have h := C3_header_format ("TELETEXT".data) 100 12 34 56
    (by decide) (by decide) (by decide) (by decide) (by decide)
  exact ⟨by decide, h.1, h.2.1, h.2.2.1, h.2.2.2.1, h.2.2.2.2.1, h.2.2.2.2.2.2.2.1⟩

end Teletext
